import Mathlib

/-!
# Verification of the user service / repository contract

Shallow embedding of the `go_postgres` user-management backend:
* `models.User` (src/internal/models, embedded in user_repository.go part) —
  the persisted entity, including the `gorm.DeletedAt` soft-delete marker;
* `GormUserRepository` (src/internal/repository/user_repository.go) — the
  store, translating driver errors into `ErrNotFound` / `ErrConflict` /
  `ErrDatabase`;
* `DefaultUserService` (src/internal/service/user_service.go) — business
  rules over an abstract `UserRepository`.

The relational database underneath (PostgreSQL accessed through GORM) is an
external collaborator; it is modelled as a list of rows plus an id counter
and a logical clock, with the semantics GORM's soft-delete convention gives
to each call used by the repository (`Create`, `First`, `Find`, `Save`,
`Delete`): reads are scoped to `deleted_at IS NULL`, the unique indexes on
`username` and `email` cover every physical row, `Save` updates all fields
of the row with the given primary key, `Delete` sets the deletion marker.
Timestamps are `Nat` (logical time); the clock is not advanced inside an
operation, matching the claims, none of which compares clocks across calls.
-/

/-- The persisted user entity (`models.User`).  `deletedAt` is the
`gorm.DeletedAt` soft-delete marker (`none` = live row). -/
structure User where
  id           : Nat
  username     : String
  email        : String
  passwordHash : String
  firstName    : String
  lastName     : String
  isActive     : Bool
  createdAt    : Nat
  updatedAt    : Nat
  deletedAt    : Option Nat
  deriving Repr, DecidableEq

/-- The relational table `app_users` plus the sequence backing the primary
key and a logical clock used for the auto-managed timestamps. -/
structure DB where
  rows   : List User
  nextId : Nat
  now    : Nat
  deriving Repr, DecidableEq

/-- A row is visible to normal (soft-delete scoped) reads. -/
def User.live (u : User) : Bool := u.deletedAt.isNone

/-- Errors surfaced by the database driver to the repository.  Models the
external PostgreSQL driver (`gorm.io/driver/postgres` over pgx): a unique
index violation raises SQLSTATE 23505 whose rendered message always embeds
the violated constraint's name in double quotes; `recordNotFound` is
`gorm.ErrRecordNotFound`. -/
inductive DriverError where
  | uniqueViolation (constraint : String)
  | recordNotFound
  | other (msg : String)
  deriving Repr, DecidableEq

/-- `err.Error()` of a driver error.  For a unique violation the pgx driver
renders `SEVERITY: message (SQLSTATE code)` where the PostgreSQL message
text is `duplicate key value violates unique constraint "<name>"` — the
constraint name is always present, in double quotes. -/
def DriverError.errString : DriverError → String
  | .uniqueViolation c =>
      "ERROR: duplicate key value violates unique constraint \"" ++ c ++
      "\" (SQLSTATE 23505)"
  | .recordNotFound => "record not found"
  | .other msg => msg

/-- Driver semantics of `db.Create(user)`: check the unique indexes on
`username` and `email` (they cover all physical rows, soft-deleted ones
included), assign the primary key from the sequence and fill the
auto-managed timestamps, append the row.  GORM back-fills the passed model,
so the stored row is also returned. -/
def dbCreate (db : DB) (u : User) : Except DriverError (DB × User) :=
  if db.rows.any (fun r => r.username == u.username) then
    .error (.uniqueViolation "idx_app_users_username")
  else if db.rows.any (fun r => r.email == u.email) then
    .error (.uniqueViolation "idx_app_users_email")
  else
    let stored : User :=
      { u with id := db.nextId, createdAt := db.now, updatedAt := db.now }
    .ok ({ db with rows := db.rows ++ [stored], nextId := db.nextId + 1 },
         stored)

/-- Driver semantics of `db.First(&user, id)`: soft-delete scoped lookup by
primary key. -/
def dbGetByID (db : DB) (id : Nat) : Option User :=
  db.rows.find? (fun r => r.id == id && r.live)

/-- Driver semantics of `db.Where("email = ?", email).First(&user)`:
soft-delete scoped lookup by email. -/
def dbGetByEmail (db : DB) (email : String) : Option User :=
  db.rows.find? (fun r => r.email == email && r.live)

/-- Driver semantics of `db.Where("username = ?", username).First(&user)`. -/
def dbGetByUsername (db : DB) (username : String) : Option User :=
  db.rows.find? (fun r => r.username == username && r.live)

/-- Insert into a list sorted by `createdAt` descending (models
`ORDER BY created_at DESC`). -/
def insertByCreatedDesc (u : User) : List User → List User
  | [] => [u]
  | v :: vs =>
      if v.createdAt < u.createdAt then u :: v :: vs
      else v :: insertByCreatedDesc u vs

/-- Sort by `createdAt` descending. -/
def sortByCreatedDesc (l : List User) : List User :=
  l.foldr insertByCreatedDesc []

/-- Driver semantics of `Model(&User{}).Count`: soft-delete scoped row
count. -/
def dbCount (db : DB) : Nat :=
  (db.rows.filter (fun r => r.live)).length

/-- Driver semantics of `Offset(offset).Limit(limit).Order("created_at
DESC").Find(&users)`: soft-delete scoped, sorted page.  GORM omits the
OFFSET clause unless the offset is positive and the LIMIT clause when the
limit is negative. -/
def dbFindPage (db : DB) (offset limit : Int) : List User :=
  let sorted := sortByCreatedDesc (db.rows.filter (fun r => r.live))
  let dropped := if offset ≤ 0 then sorted else sorted.drop offset.toNat
  if limit < 0 then dropped else dropped.take limit.toNat

/-- Driver semantics of `db.Save(user)` for a model with a non-zero primary
key: `UPDATE app_users SET <all fields> WHERE id = ? AND deleted_at IS
NULL`.  The unique indexes reject the update when any row other than the
updated ones carries the new `username` or `email`; otherwise every live
row with the given id is overwritten (all columns, with `updated_at`
auto-set to now) and the number of affected rows is reported.  GORM
back-fills `UpdatedAt` on the passed model, so the saved value is also
returned. -/
def dbSave (db : DB) (u : User) : Except DriverError (DB × User × Nat) :=
  let target := fun r : User => r.id == u.id && r.live
  let affected := (db.rows.filter target).length
  if affected == 0 then
    .ok (db, u, 0)
  else if db.rows.any (fun r => !target r && r.username == u.username) then
    .error (.uniqueViolation "idx_app_users_username")
  else if db.rows.any (fun r => !target r && r.email == u.email) then
    .error (.uniqueViolation "idx_app_users_email")
  else
    let saved : User := { u with updatedAt := db.now }
    let rows2 := db.rows.map (fun r => if target r then saved else r)
    .ok ({ db with rows := rows2 }, saved, affected)

/-- Driver semantics of `db.Delete(&User{}, id)` for a soft-deletable
model: `UPDATE app_users SET deleted_at = now WHERE id = ? AND deleted_at
IS NULL`, reporting the number of affected rows. -/
def dbDelete (db : DB) (id : Nat) : DB × Nat :=
  let target := fun r : User => r.id == id && r.live
  let affected := (db.rows.filter target).length
  let rows2 := db.rows.map
    (fun r => if target r then { r with deletedAt := some db.now } else r)
  ({ db with rows := rows2 }, affected)

/-- The repository error taxonomy (`repository.ErrNotFound`,
`ErrConflict`, `ErrDatabase`). -/
inductive RepoError where
  | notFound
  | conflict
  | database
  deriving Repr, DecidableEq

/-- `GormUserRepository.isUniqueConstraintError`: literal string equality
of the driver error's message against a fixed text, exactly as in the
source (`err != nil && err.Error() == "ERROR: duplicate key value violates
unique constraint"`). -/
def isUniqueConstraintError (err : DriverError) : Bool :=
  err.errString == "ERROR: duplicate key value violates unique constraint"

namespace Gorm

/-- `GormUserRepository.Create`. -/
def create (db : DB) (u : User) : Except RepoError (DB × User) :=
  match dbCreate db u with
  | .error e =>
      if isUniqueConstraintError e then .error .conflict
      else .error .database
  | .ok r => .ok r

/-- `GormUserRepository.GetByID`. -/
def getByID (db : DB) (id : Nat) : Except RepoError User :=
  match dbGetByID db id with
  | none => .error .notFound
  | some u => .ok u

/-- `GormUserRepository.GetByEmail`. -/
def getByEmail (db : DB) (email : String) : Except RepoError User :=
  match dbGetByEmail db email with
  | none => .error .notFound
  | some u => .ok u

/-- `GormUserRepository.GetByUsername`. -/
def getByUsername (db : DB) (username : String) : Except RepoError User :=
  match dbGetByUsername db username with
  | none => .error .notFound
  | some u => .ok u

/-- `GormUserRepository.List`: count, then the paginated soft-delete
scoped page ordered by creation time descending. -/
def list (db : DB) (offset limit : Int) :
    Except RepoError (List User × Nat) :=
  .ok (dbFindPage db offset limit, dbCount db)

/-- `GormUserRepository.Update`: `Save`, with a driver error mapped by
`isUniqueConstraintError` to `ErrConflict` (otherwise `ErrDatabase`), and
zero affected rows mapped to `ErrNotFound`. -/
def update (db : DB) (u : User) : Except RepoError (DB × User) :=
  match dbSave db u with
  | .error e =>
      if isUniqueConstraintError e then .error .conflict
      else .error .database
  | .ok (db2, saved, affected) =>
      if affected == 0 then .error .notFound
      else .ok (db2, saved)

/-- `GormUserRepository.Delete`: soft delete, zero affected rows mapped to
`ErrNotFound`. -/
def delete (db : DB) (id : Nat) : Except RepoError DB :=
  let (db2, affected) := dbDelete db id
  if affected == 0 then .error .notFound
  else .ok db2

end Gorm

/-- Models the external bcrypt primitive (`bcrypt.GenerateFromPassword` at
`bcrypt.DefaultCost`): a one-way hash whose verification contract is that
`CompareHashAndPassword` accepts exactly the password the hash was
generated from.  The salt is abstracted away (the embedding is
deterministic), the contract `bcryptCompare (bcryptGenerate p) q = true ↔
p = q` and `bcryptGenerate p ≠ p` are what the claims rely on. -/
def bcryptGenerate (password : String) : String :=
  "$2a$10$" ++ password

/-- Models `bcrypt.CompareHashAndPassword` (returns `true` on match). -/
def bcryptCompare (hash password : String) : Bool :=
  hash == bcryptGenerate password

/-- `service.CreateUserRequest`. -/
structure CreateUserRequest where
  username  : String
  email     : String
  password  : String
  firstName : String
  lastName  : String
  deriving Repr, DecidableEq

/-- `service.UpdateUserRequest`. -/
structure UpdateUserRequest where
  firstName : String
  lastName  : String
  password  : String
  deriving Repr, DecidableEq

/-- `service.UserResponse` — the public view: identifier, username, email,
names, active flag, timestamps.  It has no password-hash field. -/
structure UserResponse where
  id        : Nat
  username  : String
  email     : String
  firstName : String
  lastName  : String
  isActive  : Bool
  createdAt : Nat
  updatedAt : Nat
  deriving Repr, DecidableEq

/-- The service-level error values.  `ErrInvalidCredentials`,
`ErrUserNotFound` and `ErrUserAlreadyExists` are the sentinels declared in
package `service`; `repo e` is a raw repository-layer error propagated
unchanged (Go returns it as the same `error` value, distinct from every
service sentinel). -/
inductive SvcError where
  | invalidCredentials
  | userNotFound
  | userAlreadyExists
  | repo (e : RepoError)
  deriving Repr, DecidableEq

/-- The `repository.UserRepository` interface as consumed by
`DefaultUserService`: the service is written against this abstraction, and
`gormRepo` below is the `GormUserRepository` implementation.  State is
passed explicitly: each mutating operation returns the new store. -/
structure UserRepository where
  create     : DB → User → Except RepoError (DB × User)
  getByID    : DB → Nat → Except RepoError User
  getByEmail : DB → String → Except RepoError User
  list       : DB → Int → Int → Except RepoError (List User × Nat)
  update     : DB → User → Except RepoError (DB × User)
  delete     : DB → Nat → Except RepoError DB

/-- The `GormUserRepository` instance of the interface. -/
def gormRepo : UserRepository where
  create := Gorm.create
  getByID := Gorm.getByID
  getByEmail := Gorm.getByEmail
  list := Gorm.list
  update := Gorm.update
  delete := Gorm.delete

/-- `DefaultUserService.mapUserToResponse`. -/
def mapUserToResponse (user : User) : UserResponse :=
  { id        := user.id
    username  := user.username
    email     := user.email
    firstName := user.firstName
    lastName  := user.lastName
    isActive  := user.isActive
    createdAt := user.createdAt
    updatedAt := user.updatedAt }

/-- The entity `DefaultUserService.CreateUser` builds before persisting:
hashed password, `IsActive` true, zero id and timestamps (filled by the
store). -/
def newUserFromRequest (req : CreateUserRequest) : User :=
  { id           := 0
    username     := req.username
    email        := req.email
    passwordHash := bcryptGenerate req.password
    firstName    := req.firstName
    lastName     := req.lastName
    isActive     := true
    createdAt    := 0
    updatedAt    := 0
    deletedAt    := none }

/-- `DefaultUserService.CreateUser`: pre-check by email (found →
`ErrUserAlreadyExists`; an error other than `ErrNotFound` propagates),
hash, persist (store `ErrConflict` → `ErrUserAlreadyExists`, other store
errors propagate), respond with the public view of the stored user. -/
def CreateUser (repo : UserRepository) (db : DB) (req : CreateUserRequest) :
    Except SvcError (DB × UserResponse) :=
  match repo.getByEmail db req.email with
  | .ok _ => .error .userAlreadyExists
  | .error e =>
    if e != RepoError.notFound then .error (.repo e)
    else
      match repo.create db (newUserFromRequest req) with
      | .error RepoError.conflict => .error .userAlreadyExists
      | .error e2 => .error (.repo e2)
      | .ok (db2, stored) => .ok (db2, mapUserToResponse stored)

/-- `DefaultUserService.GetUser`. -/
def GetUser (repo : UserRepository) (db : DB) (id : Nat) :
    Except SvcError UserResponse :=
  match repo.getByID db id with
  | .error RepoError.notFound => .error .userNotFound
  | .error e => .error (.repo e)
  | .ok user => .ok (mapUserToResponse user)

/-- `DefaultUserService.ListUsers`: default the page to 1 and the page
size to 10 when below 1, query with `offset = (page-1)*pageSize` and
`limit = pageSize`, map to public views. -/
def ListUsers (repo : UserRepository) (db : DB) (page pageSize : Int) :
    Except SvcError (List UserResponse × Nat) :=
  let page1 := if page < 1 then 1 else page
  let pageSize1 := if pageSize < 1 then 10 else pageSize
  let offset := (page1 - 1) * pageSize1
  match repo.list db offset pageSize1 with
  | .error e => .error (.repo e)
  | .ok (users, count) => .ok (users.map mapUserToResponse, count)

/-- The field mutation `DefaultUserService.UpdateUser` performs on the
fetched entity: names overwritten unconditionally, password re-hashed only
when non-empty. -/
def applyUpdateRequest (user : User) (req : UpdateUserRequest) : User :=
  let user1 := { user with firstName := req.firstName,
                           lastName := req.lastName }
  if req.password != "" then
    { user1 with passwordHash := bcryptGenerate req.password }
  else user1

/-- `DefaultUserService.UpdateUser`: fetch (store `ErrNotFound` →
`ErrUserNotFound`, other store errors propagate), mutate, persist (any
store error propagates untranslated), respond with the public view of the
saved user. -/
def UpdateUser (repo : UserRepository) (db : DB) (id : Nat)
    (req : UpdateUserRequest) : Except SvcError (DB × UserResponse) :=
  match repo.getByID db id with
  | .error RepoError.notFound => .error .userNotFound
  | .error e => .error (.repo e)
  | .ok user =>
    match repo.update db (applyUpdateRequest user req) with
    | .error e => .error (.repo e)
    | .ok (db2, saved) => .ok (db2, mapUserToResponse saved)

/-- `DefaultUserService.DeleteUser`: delegate (store `ErrNotFound` →
`ErrUserNotFound`, other store errors propagate). -/
def DeleteUser (repo : UserRepository) (db : DB) (id : Nat) :
    Except SvcError DB :=
  match repo.delete db id with
  | .error RepoError.notFound => .error .userNotFound
  | .error e => .error (.repo e)
  | .ok db2 => .ok db2

/-- `DefaultUserService.AuthenticateUser`: fetch by email (store
`ErrNotFound` → `ErrInvalidCredentials`, other store errors propagate),
verify the password against the stored hash (mismatch →
`ErrInvalidCredentials`), respond with the public view. -/
def AuthenticateUser (repo : UserRepository) (db : DB)
    (email password : String) : Except SvcError UserResponse :=
  match repo.getByEmail db email with
  | .error RepoError.notFound => .error .invalidCredentials
  | .error e => .error (.repo e)
  | .ok user =>
    if bcryptCompare user.passwordHash password then
      .ok (mapUserToResponse user)
    else .error .invalidCredentials

/-! ## Concrete fixtures used by witnesses -/

/-- A persisted, live user row. -/
def aliceRow : User :=
  { id := 1, username := "alice", email := "a@x.com",
    passwordHash := bcryptGenerate "pw1", firstName := "Al",
    lastName := "Ice", isActive := true, createdAt := 100,
    updatedAt := 100, deletedAt := none }

/-- An empty store. -/
def dbEmpty : DB := { rows := [], nextId := 1, now := 100 }

/-- A store holding exactly `aliceRow`. -/
def dbOneAlice : DB := { rows := [aliceRow], nextId := 2, now := 200 }

/-- A creation request reusing `aliceRow`'s email with a fresh username. -/
def reqBobDupEmail : CreateUserRequest :=
  { username := "bob", email := "a@x.com", password := "pw2",
    firstName := "Bo", lastName := "B" }

/-- A creation request for a fresh user. -/
def reqAlice : CreateUserRequest :=
  { username := "alice", email := "a@x.com", password := "pw1",
    firstName := "Al", lastName := "Ice" }

/-- An update request carrying a new password. -/
def updWithPw : UpdateUserRequest :=
  { firstName := "New", lastName := "", password := "pw9" }

/-- An update request with the password field left empty. -/
def updNoPw : UpdateUserRequest :=
  { firstName := "New", lastName := "", password := "" }

/-- A repository implementation whose insert reports a uniqueness conflict
(the race with a concurrent create the service guards against). -/
def conflictingRepo : UserRepository where
  create := fun _ _ => .error .conflict
  getByID := Gorm.getByID
  getByEmail := fun _ _ => .error .notFound
  list := Gorm.list
  update := Gorm.update
  delete := Gorm.delete

/-- A repository implementation whose save step fails with the generic
database error after a successful fetch. -/
def updateFailRepo : UserRepository where
  create := Gorm.create
  getByID := fun _ _ => .ok aliceRow
  getByEmail := Gorm.getByEmail
  list := Gorm.list
  update := fun _ _ => .error .database
  delete := Gorm.delete

/-- The stored row `Gorm.create` produces for `reqAlice` on `dbEmpty`. -/
def aliceStored : User :=
  { newUserFromRequest reqAlice with
    id := 1
    createdAt := 100
    updatedAt := 100 }

/-- The store after creating `reqAlice` in `dbEmpty`. -/
def dbAfterCreate : DB := { rows := [aliceStored], nextId := 2, now := 100 }

/-- `aliceRow` after applying `updWithPw` and saving at clock 200. -/
def aliceUpdated : User :=
  { aliceRow with
    firstName := "New"
    lastName := ""
    passwordHash := bcryptGenerate "pw9"
    updatedAt := 200 }

/-- The store after updating `aliceRow` with `updWithPw` in `dbOneAlice`. -/
def dbAfterUpdate : DB := { rows := [aliceUpdated], nextId := 2, now := 200 }

/-! ## Helper lemmas -/

/-- Overwriting every `p`-row of a list with a `p`-satisfying value makes
`find? p` return that value, provided some `p`-row exists. -/
theorem find?_map_overwrite (p : User → Bool) (s : User) (hs : p s = true)
    (l : List User) (hex : ∃ r, r ∈ l ∧ p r = true) :
    (l.map (fun r => if p r then s else r)).find? p = some s := by
  induction l with
  | nil => rcases hex with ⟨r, hr, _⟩; cases hr
  | cons a t ih =>
    by_cases ha : p a = true
    · simp [List.find?_cons, ha, hs]
    · have ha' : p a = false := by
        cases hpa : p a
        · rfl
        · exact absurd hpa ha
      simp only [List.map_cons, List.find?_cons, ha', if_neg]
      simp only [Bool.false_eq_true, if_false, ha']
      apply ih
      rcases hex with ⟨r, hr, hpr⟩
      rcases List.mem_cons.mp hr with rfl | hrt
      · exact absurd hpr ha
      · exact ⟨r, hrt, hpr⟩

/-- `find?` on `l ++ [a]` finds `a` when nothing in `l` matches. -/
theorem find?_append_last (p : User → Bool) (l : List User) (a : User)
    (hl : ∀ x ∈ l, p x = false) (ha : p a = true) :
    (l ++ [a]).find? p = some a := by
  induction l with
  | nil => simp [List.find?_cons, ha]
  | cons b t ih =>
    have hb : p b = false := hl b (List.mem_cons_self b t)
    simp only [List.cons_append, List.find?_cons, hb, Bool.false_eq_true,
      if_false]
    exact ih (fun x hx => hl x (List.mem_cons_of_mem b hx))

/-- Membership in the sorted list implies membership in the original. -/
theorem mem_of_mem_insertByCreatedDesc {x u : User} {l : List User}
    (h : x ∈ insertByCreatedDesc u l) : x = u ∨ x ∈ l := by
  induction l with
  | nil =>
    simp only [insertByCreatedDesc, List.mem_singleton] at h
    exact Or.inl h
  | cons v vs ih =>
    by_cases hc : v.createdAt < u.createdAt
    · simp only [insertByCreatedDesc, if_pos hc] at h
      rcases List.mem_cons.mp h with rfl | h2
      · exact Or.inl rfl
      · exact Or.inr h2
    · simp only [insertByCreatedDesc, if_neg hc] at h
      rcases List.mem_cons.mp h with rfl | h2
      · exact Or.inr (List.mem_cons_self _ _)
      · rcases ih h2 with rfl | h3
        · exact Or.inl rfl
        · exact Or.inr (List.mem_cons_of_mem _ h3)

/-- Membership in `sortByCreatedDesc l` implies membership in `l`. -/
theorem mem_of_mem_sortByCreatedDesc {x : User} {l : List User}
    (h : x ∈ sortByCreatedDesc l) : x ∈ l := by
  induction l with
  | nil => simp [sortByCreatedDesc] at h
  | cons a t ih =>
    simp only [sortByCreatedDesc, List.foldr_cons] at h
    rcases mem_of_mem_insertByCreatedDesc h with rfl | h2
    · exact List.mem_cons_self _ _
    · exact List.mem_cons_of_mem _ (ih h2)

/-- A successful `find?` makes the corresponding `filter` nonempty. -/
theorem filter_ne_nil_of_find?_eq_some {p : User → Bool} {l : List User}
    {u : User} (h : l.find? p = some u) : l.filter p ≠ [] := by
  intro hnil
  exact (List.filter_eq_nil_iff.mp hnil) u (List.mem_of_find?_eq_some h)
    (by simpa using List.find?_some h)

/-- Membership in a page produced by `dbFindPage` implies a live row of
the store. -/
theorem mem_dbFindPage {db : DB} {offset limit : Int} {r : User}
    (h : r ∈ dbFindPage db offset limit) :
    r ∈ db.rows ∧ r.live = true := by
  have hsorted : r ∈ sortByCreatedDesc (db.rows.filter (fun x => x.live)) := by
    unfold dbFindPage at h
    by_cases hlim : limit < 0
    · simp only [if_pos hlim] at h
      by_cases hoff : offset ≤ 0
      · simpa [hoff] using h
      · simp only [if_neg hoff] at h
        exact List.drop_subset _ _ h
    · simp only [if_neg hlim] at h
      have h2 := List.take_subset _ _ h
      by_cases hoff : offset ≤ 0
      · simpa [hoff] using h2
      · simp only [if_neg hoff] at h2
        exact List.drop_subset _ _ h2
  have hmem := mem_of_mem_sortByCreatedDesc hsorted
  have := List.mem_filter.mp hmem
  exact ⟨this.1, this.2⟩

/-! ## Claims -/

/-- C1: the claim says that inserting a user whose username or email is
already taken by a live user makes the store's `Create` fail with
`ErrConflict`, decided by `isUniqueConstraintError`.  The code violates
this: `isUniqueConstraintError` compares the driver error's message for
exact equality with a literal that lacks the quoted constraint name (and
SQLSTATE suffix) every real PostgreSQL duplicate-key message carries, so
the comparison never succeeds and the store returns the generic
`ErrDatabase` instead.  Demonstrated here on a store holding a live user
with email `a@x.com` and a create request reusing that email. -/
theorem C1_duplicate_create_yields_database_not_conflict :
    (aliceRow ∈ dbOneAlice.rows ∧ aliceRow.live = true
      ∧ aliceRow.email = reqBobDupEmail.email)
    ∧ dbCreate dbOneAlice (newUserFromRequest reqBobDupEmail)
        = .error (DriverError.uniqueViolation "idx_app_users_email")
    ∧ isUniqueConstraintError
        (DriverError.uniqueViolation "idx_app_users_email") = false
    ∧ Gorm.create dbOneAlice (newUserFromRequest reqBobDupEmail)
        = .error RepoError.database := by
  refine ⟨⟨?_, rfl, rfl⟩, rfl, rfl, rfl⟩
  simp [dbOneAlice]

/-- C4: `ListUsers` substitutes page 1 when the page is below 1 and page
size 10 when the page size is below 1, enforces no upper bound on the page
size, queries the store with `offset = (page-1)*pageSize` and `limit =
pageSize`, and `ListUsers 0 0` coincides with `ListUsers 1 10`. -/
theorem C4_listUsers_defaults :
    (∀ (repo : UserRepository) (db : DB) (page pageSize : Int), page < 1 →
        ListUsers repo db page pageSize = ListUsers repo db 1 pageSize)
    ∧ (∀ (repo : UserRepository) (db : DB) (page pageSize : Int),
        pageSize < 1 →
        ListUsers repo db page pageSize = ListUsers repo db page 10)
    ∧ (∀ (repo : UserRepository) (db : DB) (page pageSize : Int),
        1 ≤ page → 1 ≤ pageSize →
        ListUsers repo db page pageSize =
          match repo.list db ((page - 1) * pageSize) pageSize with
          | .error e => .error (.repo e)
          | .ok (users, count) => .ok (users.map mapUserToResponse, count))
    ∧ (∀ (repo : UserRepository) (db : DB),
        ListUsers repo db 0 0 = ListUsers repo db 1 10) := by
  refine ⟨?_, ?_, ?_, ?_⟩
  · intro repo db page pageSize h
    norm_num [ListUsers, h]
  · intro repo db page pageSize h
    norm_num [ListUsers, h]
  · intro repo db page pageSize hp hs
    have hp' : ¬ page < 1 := not_lt.mpr hp
    have hs' : ¬ pageSize < 1 := not_lt.mpr hs
    simp only [ListUsers, if_neg hp', if_neg hs']
  · intro repo db
    norm_num [ListUsers]

/-- Witness for C4 at concrete inputs. -/
theorem C4_listUsers_defaults_witness :
    ((0 : Int) < 1
      ∧ ListUsers gormRepo dbOneAlice 0 5 = ListUsers gormRepo dbOneAlice 1 5)
    ∧ ((0 : Int) < 1
      ∧ ListUsers gormRepo dbOneAlice 2 0 = ListUsers gormRepo dbOneAlice 2 10)
    ∧ ((1 : Int) ≤ 2 ∧ (1 : Int) ≤ 3
      ∧ ListUsers gormRepo dbOneAlice 2 3 =
          match gormRepo.list dbOneAlice ((2 - 1) * 3) 3 with
          | .error e => .error (.repo e)
          | .ok (users, count) => .ok (users.map mapUserToResponse, count))
    ∧ ListUsers gormRepo dbOneAlice 0 0 = ListUsers gormRepo dbOneAlice 1 10 :=
  ⟨⟨by norm_num, C4_listUsers_defaults.1 gormRepo dbOneAlice 0 5 (by norm_num)⟩,
   ⟨by norm_num,
    C4_listUsers_defaults.2.1 gormRepo dbOneAlice 2 0 (by norm_num)⟩,
   ⟨by norm_num, by norm_num,
    C4_listUsers_defaults.2.2.1 gormRepo dbOneAlice 2 3 (by norm_num)
      (by norm_num)⟩,
   C4_listUsers_defaults.2.2.2 gormRepo dbOneAlice⟩

/-- C6: on an id with no live row, `GetUser`, `UpdateUser` (for every
request) and `DeleteUser` all return `ErrUserNotFound`. -/
theorem C6_missing_id_not_found (db : DB) (id : Nat)
    (h : dbGetByID db id = none) :
    GetUser gormRepo db id = .error SvcError.userNotFound
    ∧ (∀ req : UpdateUserRequest,
        UpdateUser gormRepo db id req = .error SvcError.userNotFound)
    ∧ DeleteUser gormRepo db id = .error SvcError.userNotFound := by
  have hfil : db.rows.filter (fun r => r.id == id && r.live) = [] := by
    apply List.filter_eq_nil_iff.mpr
    intro a ha
    have := List.find?_eq_none.mp h a ha
    simpa using this
  refine ⟨?_, ?_, ?_⟩
  · simp [GetUser, gormRepo, Gorm.getByID, h]
  · intro req
    simp [UpdateUser, gormRepo, Gorm.getByID, h]
  · simp [DeleteUser, gormRepo, Gorm.delete, dbDelete, hfil]

/-- Witness for C6 on an empty store and id 7. -/
theorem C6_missing_id_not_found_witness :
    dbGetByID dbEmpty 7 = none
    ∧ GetUser gormRepo dbEmpty 7 = .error SvcError.userNotFound
    ∧ UpdateUser gormRepo dbEmpty 7 updNoPw = .error SvcError.userNotFound
    ∧ DeleteUser gormRepo dbEmpty 7 = .error SvcError.userNotFound :=
  ⟨rfl, (C6_missing_id_not_found dbEmpty 7 rfl).1,
   (C6_missing_id_not_found dbEmpty 7 rfl).2.1 updNoPw,
   (C6_missing_id_not_found dbEmpty 7 rfl).2.2⟩

/-- C2: `CreateUser` returns `ErrUserAlreadyExists` when the pre-check by
email finds a user or when the store reports `ErrConflict` at insert time;
otherwise the persisted entity carries the bcrypt hash of the plaintext
password (never the plaintext itself) and `IsActive` true, and the result
is the public view of the stored user. -/
theorem C2_createUser_contract :
    (∀ (repo : UserRepository) (db : DB) (req : CreateUserRequest)
        (u : User), repo.getByEmail db req.email = .ok u →
        CreateUser repo db req = .error SvcError.userAlreadyExists)
    ∧ (∀ (repo : UserRepository) (db : DB) (req : CreateUserRequest),
        repo.getByEmail db req.email = .error RepoError.notFound →
        repo.create db (newUserFromRequest req) = .error RepoError.conflict →
        CreateUser repo db req = .error SvcError.userAlreadyExists)
    ∧ (∀ (repo : UserRepository) (db : DB) (req : CreateUserRequest)
        (db2 : DB) (stored : User),
        repo.getByEmail db req.email = .error RepoError.notFound →
        repo.create db (newUserFromRequest req) = .ok (db2, stored) →
        CreateUser repo db req = .ok (db2, mapUserToResponse stored))
    ∧ (∀ req : CreateUserRequest,
        (newUserFromRequest req).passwordHash = bcryptGenerate req.password
        ∧ (newUserFromRequest req).passwordHash ≠ req.password
        ∧ (newUserFromRequest req).isActive = true)
    ∧ (∀ (db db2 : DB) (u stored : User),
        Gorm.create db u = .ok (db2, stored) →
        stored.passwordHash = u.passwordHash
        ∧ stored.isActive = u.isActive
        ∧ stored ∈ db2.rows) := by
  refine ⟨?_, ?_, ?_, ?_, ?_⟩
  · intro repo db req u h
    simp [CreateUser, h]
  · intro repo db req h1 h2
    simp [CreateUser, h1, h2]
  · intro repo db req db2 stored h1 h2
    simp [CreateUser, h1, h2]
  · intro req
    refine ⟨rfl, ?_, rfl⟩
    intro hEq
    simp only [newUserFromRequest, bcryptGenerate] at hEq
    have hlen := congrArg String.length hEq
    rw [String.length_append] at hlen
    have h7 : ("$2a$10$" : String).length = 7 := rfl
    omega
  · intro db db2 u stored h
    unfold Gorm.create at h
    split at h
    · split at h <;> cases h
    · rename_i r heq
      cases h
      unfold dbCreate at heq
      split at heq
      · cases heq
      · split at heq
        · cases heq
        · cases heq
          refine ⟨rfl, rfl, ?_⟩
          simp

/-- Witness for C2: pre-check rejection, insert-time conflict rejection,
successful creation with hashed password, on concrete stores. -/
theorem C2_createUser_contract_witness :
    gormRepo.getByEmail dbOneAlice reqBobDupEmail.email = .ok aliceRow
    ∧ CreateUser gormRepo dbOneAlice reqBobDupEmail
        = .error SvcError.userAlreadyExists
    ∧ conflictingRepo.getByEmail dbEmpty reqAlice.email
        = .error RepoError.notFound
    ∧ conflictingRepo.create dbEmpty (newUserFromRequest reqAlice)
        = .error RepoError.conflict
    ∧ CreateUser conflictingRepo dbEmpty reqAlice
        = .error SvcError.userAlreadyExists
    ∧ gormRepo.create dbEmpty (newUserFromRequest reqAlice)
        = .ok (dbAfterCreate, aliceStored)
    ∧ CreateUser gormRepo dbEmpty reqAlice
        = .ok (dbAfterCreate, mapUserToResponse aliceStored)
    ∧ (newUserFromRequest reqAlice).passwordHash
        = bcryptGenerate reqAlice.password
    ∧ (newUserFromRequest reqAlice).passwordHash ≠ reqAlice.password
    ∧ (newUserFromRequest reqAlice).isActive = true
    ∧ aliceStored.passwordHash = (newUserFromRequest reqAlice).passwordHash
    ∧ aliceStored.isActive = (newUserFromRequest reqAlice).isActive
    ∧ aliceStored ∈ dbAfterCreate.rows :=
  ⟨rfl,
   C2_createUser_contract.1 gormRepo dbOneAlice reqBobDupEmail aliceRow rfl,
   rfl, rfl,
   C2_createUser_contract.2.1 conflictingRepo dbEmpty reqAlice rfl rfl,
   rfl,
   C2_createUser_contract.2.2.1 gormRepo dbEmpty reqAlice dbAfterCreate
     aliceStored rfl rfl,
   (C2_createUser_contract.2.2.2.1 reqAlice).1,
   (C2_createUser_contract.2.2.2.1 reqAlice).2.1,
   (C2_createUser_contract.2.2.2.1 reqAlice).2.2,
   (C2_createUser_contract.2.2.2.2 dbEmpty dbAfterCreate
     (newUserFromRequest reqAlice) aliceStored rfl).1,
   (C2_createUser_contract.2.2.2.2 dbEmpty dbAfterCreate
     (newUserFromRequest reqAlice) aliceStored rfl).2.1,
   (C2_createUser_contract.2.2.2.2 dbEmpty dbAfterCreate
     (newUserFromRequest reqAlice) aliceStored rfl).2.2⟩

/-- C3: `AuthenticateUser` returns `ErrInvalidCredentials` both when no
user with the email exists and when the password fails verification
against the stored hash — the same error value in both cases — and on
success returns the public view of the user. -/
theorem C3_authenticate_contract :
    (∀ (repo : UserRepository) (db : DB) (email password : String),
        repo.getByEmail db email = .error RepoError.notFound →
        AuthenticateUser repo db email password
          = .error SvcError.invalidCredentials)
    ∧ (∀ (repo : UserRepository) (db : DB) (email password : String)
        (u : User), repo.getByEmail db email = .ok u →
        bcryptCompare u.passwordHash password = false →
        AuthenticateUser repo db email password
          = .error SvcError.invalidCredentials)
    ∧ (∀ (repo : UserRepository) (db : DB) (email password : String)
        (u : User), repo.getByEmail db email = .ok u →
        bcryptCompare u.passwordHash password = true →
        AuthenticateUser repo db email password
          = .ok (mapUserToResponse u)) := by
  refine ⟨?_, ?_, ?_⟩
  · intro repo db email password h
    simp [AuthenticateUser, h]
  · intro repo db email password u h hpw
    simp [AuthenticateUser, h, hpw]
  · intro repo db email password u h hpw
    simp [AuthenticateUser, h, hpw]

/-- Witness for C3: wrong password and unknown email yield the same
`ErrInvalidCredentials`; the correct password yields the public view. -/
theorem C3_authenticate_contract_witness :
    gormRepo.getByEmail dbOneAlice "a@x.com" = .ok aliceRow
    ∧ bcryptCompare aliceRow.passwordHash "bad" = false
    ∧ AuthenticateUser gormRepo dbOneAlice "a@x.com" "bad"
        = .error SvcError.invalidCredentials
    ∧ gormRepo.getByEmail dbOneAlice "z@x.com" = .error RepoError.notFound
    ∧ AuthenticateUser gormRepo dbOneAlice "z@x.com" "pw1"
        = .error SvcError.invalidCredentials
    ∧ bcryptCompare aliceRow.passwordHash "pw1" = true
    ∧ AuthenticateUser gormRepo dbOneAlice "a@x.com" "pw1"
        = .ok (mapUserToResponse aliceRow) :=
  ⟨rfl, rfl,
   C3_authenticate_contract.2.1 gormRepo dbOneAlice "a@x.com" "bad" aliceRow
     rfl rfl,
   rfl,
   C3_authenticate_contract.1 gormRepo dbOneAlice "z@x.com" "pw1" rfl,
   rfl,
   C3_authenticate_contract.2.2 gormRepo dbOneAlice "a@x.com" "pw1" aliceRow
     rfl rfl⟩

/-- C10: when the save step of `UpdateUser` fails after a successful
fetch, the repository-layer error is returned unchanged — as the raw
repository error value, distinct from the service sentinels
`ErrUserNotFound` and `ErrUserAlreadyExists`. -/
theorem C10_update_error_propagates_raw (repo : UserRepository) (db : DB)
    (id : Nat) (req : UpdateUserRequest) (u : User)
    (hget : repo.getByID db id = .ok u) (e : RepoError)
    (hupd : repo.update db (applyUpdateRequest u req) = .error e) :
    UpdateUser repo db id req = .error (SvcError.repo e)
    ∧ SvcError.repo e ≠ SvcError.userNotFound
    ∧ SvcError.repo e ≠ SvcError.userAlreadyExists := by
  refine ⟨?_, by simp, by simp⟩
  simp [UpdateUser, hget, hupd]

/-- Witness for C10 with a repository whose save step fails with the
generic database error. -/
theorem C10_update_error_propagates_raw_witness :
    updateFailRepo.getByID dbOneAlice 1 = .ok aliceRow
    ∧ updateFailRepo.update dbOneAlice (applyUpdateRequest aliceRow updNoPw)
        = .error RepoError.database
    ∧ UpdateUser updateFailRepo dbOneAlice 1 updNoPw
        = .error (SvcError.repo RepoError.database)
    ∧ SvcError.repo RepoError.database ≠ SvcError.userNotFound
    ∧ SvcError.repo RepoError.database ≠ SvcError.userAlreadyExists :=
  ⟨rfl, rfl,
   (C10_update_error_propagates_raw updateFailRepo dbOneAlice 1 updNoPw
      aliceRow rfl RepoError.database rfl).1,
   (C10_update_error_propagates_raw updateFailRepo dbOneAlice 1 updNoPw
      aliceRow rfl RepoError.database rfl).2.1,
   (C10_update_error_propagates_raw updateFailRepo dbOneAlice 1 updNoPw
      aliceRow rfl RepoError.database rfl).2.2⟩

/-- Field-by-field description of the mutation `UpdateUser` applies to the
fetched entity. -/
theorem applyUpdateRequest_fields (u : User) (req : UpdateUserRequest) :
    (applyUpdateRequest u req).id = u.id
    ∧ (applyUpdateRequest u req).username = u.username
    ∧ (applyUpdateRequest u req).email = u.email
    ∧ (applyUpdateRequest u req).isActive = u.isActive
    ∧ (applyUpdateRequest u req).createdAt = u.createdAt
    ∧ (applyUpdateRequest u req).updatedAt = u.updatedAt
    ∧ (applyUpdateRequest u req).deletedAt = u.deletedAt
    ∧ (applyUpdateRequest u req).firstName = req.firstName
    ∧ (applyUpdateRequest u req).lastName = req.lastName
    ∧ (req.password = "" →
        (applyUpdateRequest u req).passwordHash = u.passwordHash)
    ∧ (req.password ≠ "" →
        (applyUpdateRequest u req).passwordHash
          = bcryptGenerate req.password) := by
  unfold applyUpdateRequest
  by_cases h : req.password = ""
  · simp [h]
  · simp [h]

/-- What a successful `GormUserRepository.Update` does to the store. -/
theorem gorm_update_ok {db db2 : DB} {u saved : User}
    (h : Gorm.update db u = .ok (db2, saved)) :
    saved = { u with updatedAt := db.now }
    ∧ db2.rows = db.rows.map
        (fun r => if r.id == u.id && r.live
          then { u with updatedAt := db.now } else r)
    ∧ db2.nextId = db.nextId
    ∧ db2.now = db.now
    ∧ db.rows.filter (fun r => r.id == u.id && r.live) ≠ [] := by
  cases hsave : dbSave db u with
  | error e =>
    simp only [Gorm.update, hsave] at h
    split at h <;> cases h
  | ok t =>
    obtain ⟨db', saved', affected⟩ := t
    simp only [Gorm.update, hsave] at h
    by_cases haff : (affected == 0) = true
    · rw [if_pos haff] at h
      cases h
    · rw [if_neg haff] at h
      cases h
      simp only [dbSave] at hsave
      split at hsave
      · cases hsave
        exact absurd rfl haff
      · split at hsave
        · cases hsave
        · split at hsave
          · cases hsave
          · cases hsave
            rename_i hzero _ _
            refine ⟨rfl, rfl, rfl, rfl, ?_⟩
            intro hnil
            simp [hnil] at hzero

/-- C5: for an existing user, `UpdateUser` overwrites first and last name
unconditionally with the request values, leaves the stored password hash
unchanged when the request's password is empty and replaces it with the
bcrypt hash of the new password otherwise, and leaves id, username, email,
the active flag and the creation timestamp unchanged; the response is the
public view of the saved entity. -/
theorem C5_updateUser_frame (db : DB) (id : Nat) (req : UpdateUserRequest)
    (u : User) (hget : dbGetByID db id = some u)
    (db2 : DB) (resp : UserResponse)
    (hupd : UpdateUser gormRepo db id req = .ok (db2, resp)) :
    ∃ saved : User,
      dbGetByID db2 id = some saved
      ∧ saved.firstName = req.firstName
      ∧ saved.lastName = req.lastName
      ∧ (req.password = "" → saved.passwordHash = u.passwordHash)
      ∧ (req.password ≠ "" →
          saved.passwordHash = bcryptGenerate req.password)
      ∧ saved.id = u.id
      ∧ saved.username = u.username
      ∧ saved.email = u.email
      ∧ saved.isActive = u.isActive
      ∧ saved.createdAt = u.createdAt
      ∧ resp = mapUserToResponse saved := by
  obtain ⟨hid, husername, hemail, hactive, hcreated, hupdated, hdeleted,
    hfn, hln, hpw0, hpw1⟩ := applyUpdateRequest_fields u req
  have humem : u ∈ db.rows := List.mem_of_find?_eq_some hget
  have hupred := List.find?_some hget
  have huid : u.id = id := by
    have := hupred
    simp only [Bool.and_eq_true, beq_iff_eq] at this
    exact this.1
  have hulive : u.live = true := by
    have := hupred
    simp only [Bool.and_eq_true] at this
    exact this.2
  have hget' : Gorm.getByID db id = .ok u := by
    simp [Gorm.getByID, hget]
  simp only [UpdateUser, gormRepo, hget'] at hupd
  cases hupd2 : Gorm.update db (applyUpdateRequest u req) with
  | error e =>
    rw [hupd2] at hupd
    cases hupd
  | ok t =>
    obtain ⟨db2', saved'⟩ := t
    rw [hupd2] at hupd
    simp only [Except.ok.injEq, Prod.mk.injEq] at hupd
    obtain ⟨rfl, rfl⟩ := hupd
    obtain ⟨hsaved, hrows, -, -, -⟩ := gorm_update_ok hupd2
    have hid2 : (applyUpdateRequest u req).id = id := hid.trans huid
    rw [hid2] at hsaved hrows
    refine ⟨saved', ?_, ?_, ?_, ?_, ?_, ?_, ?_, ?_, ?_, ?_, rfl⟩
    · unfold dbGetByID
      rw [hrows, hsaved]
      apply find?_map_overwrite
      · have hdel : (applyUpdateRequest u req).deletedAt.isNone = true := by
          rw [hdeleted]
          simp [User.live] at hulive
          simp [hulive]
        simp [User.live, hdel]
      · exact ⟨u, humem, by simp [huid, hulive]⟩
    · rw [hsaved]; exact hfn
    · rw [hsaved]; exact hln
    · intro h; rw [hsaved]; exact hpw0 h
    · intro h; rw [hsaved]; exact hpw1 h
    · rw [hsaved]; exact huid.symm
    · rw [hsaved]; exact husername
    · rw [hsaved]; exact hemail
    · rw [hsaved]; exact hactive
    · rw [hsaved]; exact hcreated

/-- Witness for C5: updating the stored user with a new name and password
on a concrete store. -/
theorem C5_updateUser_frame_witness :
    dbGetByID dbOneAlice 1 = some aliceRow
    ∧ UpdateUser gormRepo dbOneAlice 1 updWithPw
        = .ok (dbAfterUpdate, mapUserToResponse aliceUpdated)
    ∧ ∃ saved : User,
        dbGetByID dbAfterUpdate 1 = some saved
        ∧ saved.firstName = updWithPw.firstName
        ∧ saved.lastName = updWithPw.lastName
        ∧ (updWithPw.password = "" →
            saved.passwordHash = aliceRow.passwordHash)
        ∧ (updWithPw.password ≠ "" →
            saved.passwordHash = bcryptGenerate updWithPw.password)
        ∧ saved.id = aliceRow.id
        ∧ saved.username = aliceRow.username
        ∧ saved.email = aliceRow.email
        ∧ saved.isActive = aliceRow.isActive
        ∧ saved.createdAt = aliceRow.createdAt
        ∧ mapUserToResponse aliceUpdated = mapUserToResponse saved :=
  ⟨rfl, rfl,
   C5_updateUser_frame dbOneAlice 1 updWithPw aliceRow rfl dbAfterUpdate
     (mapUserToResponse aliceUpdated) rfl⟩

/-- C7: deleting an existing user soft-deletes it: the row count is
unchanged, the row remains with its deletion marker set, a subsequent
`GetUser` returns `ErrUserNotFound`, and the user appears in no
`ListUsers` result. -/
theorem C7_delete_soft_deletes (db : DB) (id : Nat) (u : User)
    (hget : dbGetByID db id = some u) :
    ∃ db2 : DB, DeleteUser gormRepo db id = .ok db2
      ∧ db2.rows.length = db.rows.length
      ∧ (∃ r ∈ db2.rows, r.id = id ∧ r.deletedAt = some db.now)
      ∧ GetUser gormRepo db2 id = .error SvcError.userNotFound
      ∧ (∀ (page pageSize : Int) (resp : List UserResponse) (total : Nat),
          ListUsers gormRepo db2 page pageSize = .ok (resp, total) →
          ∀ v ∈ resp, v.id ≠ id) := by
  have humem : u ∈ db.rows := List.mem_of_find?_eq_some hget
  have hupred := List.find?_some hget
  have huid : u.id = id := by
    have := hupred
    simp only [Bool.and_eq_true, beq_iff_eq] at this
    exact this.1
  have hulive : u.live = true := by
    have := hupred
    simp only [Bool.and_eq_true] at this
    exact this.2
  have hfilne : db.rows.filter (fun r => r.id == id && r.live) ≠ [] := by
    intro h0
    have hmemf : u ∈ db.rows.filter (fun r => r.id == id && r.live) :=
      List.mem_filter.mpr ⟨humem, by simp [huid, hulive]⟩
    rw [h0] at hmemf
    cases hmemf
  have hne : (((db.rows.filter
      (fun r => r.id == id && r.live)).length == 0) = false) := by
    have hpos := List.length_pos.mpr hfilne
    simp only [beq_eq_false_iff_ne]
    omega
  refine ⟨⟨db.rows.map (fun r => if r.id == id && r.live
      then { r with deletedAt := some db.now } else r), db.nextId, db.now⟩,
    ?_, ?_, ?_, ?_, ?_⟩
  · simp [DeleteUser, gormRepo, Gorm.delete, dbDelete, hne]
  · simp
  · refine ⟨{ u with deletedAt := some db.now }, ?_, huid, rfl⟩
    exact List.mem_map.mpr ⟨u, humem, by simp [huid, hulive]⟩
  · have hnone : dbGetByID ⟨db.rows.map (fun r => if r.id == id && r.live
        then { r with deletedAt := some db.now } else r),
        db.nextId, db.now⟩ id = none := by
      unfold dbGetByID
      apply List.find?_eq_none.mpr
      intro x hx
      obtain ⟨s, hs, rfl⟩ := List.mem_map.mp hx
      by_cases hps : (s.id == id && s.live) = true
      · rw [if_pos hps]
        simp [User.live]
      · rw [if_neg hps]
        exact hps
    simp only [GetUser, gormRepo, Gorm.getByID, hnone]
  · intro page pageSize resp total hok v hv
    simp only [ListUsers, gormRepo, Gorm.list, Except.ok.injEq,
      Prod.mk.injEq] at hok
    obtain ⟨hresp, -⟩ := hok
    rw [← hresp] at hv
    obtain ⟨r, hrmem, rfl⟩ := List.mem_map.mp hv
    obtain ⟨hr2, hrlive⟩ := mem_dbFindPage hrmem
    obtain ⟨s, hs, rfl⟩ := List.mem_map.mp hr2
    by_cases hps : (s.id == id && s.live) = true
    · rw [if_pos hps] at hrlive
      simp [User.live] at hrlive
    · rw [if_neg hps] at hrlive ⊢
      simp only [mapUserToResponse, ne_eq]
      intro heq
      apply hps
      simp only [Bool.and_eq_true, beq_iff_eq]
      exact ⟨heq, hrlive⟩

/-- Witness for C7 on the concrete store holding `aliceRow`. -/
theorem C7_delete_soft_deletes_witness :
    dbGetByID dbOneAlice 1 = some aliceRow
    ∧ ∃ db2 : DB, DeleteUser gormRepo dbOneAlice 1 = .ok db2
      ∧ db2.rows.length = dbOneAlice.rows.length
      ∧ (∃ r ∈ db2.rows, r.id = 1 ∧ r.deletedAt = some dbOneAlice.now)
      ∧ GetUser gormRepo db2 1 = .error SvcError.userNotFound
      ∧ (∀ (page pageSize : Int) (resp : List UserResponse) (total : Nat),
          ListUsers gormRepo db2 page pageSize = .ok (resp, total) →
          ∀ v ∈ resp, v.id ≠ 1) :=
  ⟨rfl, C7_delete_soft_deletes dbOneAlice 1 aliceRow rfl⟩

/-- What a successful `GormUserRepository.Create` does to the store. -/
theorem gorm_create_ok {db db2 : DB} {u stored : User}
    (h : Gorm.create db u = .ok (db2, stored)) :
    stored = { u with
      id := db.nextId
      createdAt := db.now
      updatedAt := db.now }
    ∧ db2.rows = db.rows ++ [stored]
    ∧ db2.nextId = db.nextId + 1
    ∧ db2.now = db.now := by
  unfold Gorm.create at h
  split at h
  · split at h <;> cases h
  · rename_i r heq
    cases h
    unfold dbCreate at heq
    split at heq
    · cases heq
    · split at heq
      · cases heq
      · cases heq
        exact ⟨rfl, rfl, rfl, rfl⟩

/-- C8: if `CreateUser` succeeds on a store whose id sequence is fresh,
fetching the returned id yields exactly the response `CreateUser`
returned, field for field. -/
theorem C8_create_get_roundtrip (db : DB) (req : CreateUserRequest)
    (hfresh : ∀ r ∈ db.rows, r.id ≠ db.nextId)
    (db2 : DB) (resp : UserResponse)
    (hc : CreateUser gormRepo db req = .ok (db2, resp)) :
    GetUser gormRepo db2 resp.id = .ok resp := by
  cases hmail : gormRepo.getByEmail db req.email with
  | ok u =>
    have hce : CreateUser gormRepo db req
        = .error SvcError.userAlreadyExists := by
      simp [CreateUser, hmail]
    rw [hce] at hc
    cases hc
  | error e =>
    cases e with
    | conflict =>
      have hce : CreateUser gormRepo db req
          = .error (SvcError.repo RepoError.conflict) := by
        simp [CreateUser, hmail]
      rw [hce] at hc
      cases hc
    | database =>
      have hce : CreateUser gormRepo db req
          = .error (SvcError.repo RepoError.database) := by
        simp [CreateUser, hmail]
      rw [hce] at hc
      cases hc
    | notFound =>
      cases hcr : gormRepo.create db (newUserFromRequest req) with
      | error e2 =>
        cases e2 with
        | notFound =>
          have hce : CreateUser gormRepo db req
              = .error (SvcError.repo RepoError.notFound) := by
            simp [CreateUser, hmail, hcr]
          rw [hce] at hc
          cases hc
        | conflict =>
          have hce : CreateUser gormRepo db req
              = .error SvcError.userAlreadyExists := by
            simp [CreateUser, hmail, hcr]
          rw [hce] at hc
          cases hc
        | database =>
          have hce : CreateUser gormRepo db req
              = .error (SvcError.repo RepoError.database) := by
            simp [CreateUser, hmail, hcr]
          rw [hce] at hc
          cases hc
      | ok t =>
        obtain ⟨db2', stored⟩ := t
        have hce : CreateUser gormRepo db req
            = .ok (db2', mapUserToResponse stored) := by
          simp [CreateUser, hmail, hcr]
        rw [hce] at hc
        simp only [Except.ok.injEq, Prod.mk.injEq] at hc
        obtain ⟨rfl, rfl⟩ := hc
        have hcr2 : Gorm.create db (newUserFromRequest req)
            = .ok (db2', stored) := hcr
        obtain ⟨hstored, hrows, -, -⟩ := gorm_create_ok hcr2
        have hrespid : (mapUserToResponse stored).id = db.nextId := by
          rw [hstored]
          rfl
        have hfind : dbGetByID db2' (mapUserToResponse stored).id
            = some stored := by
          unfold dbGetByID
          rw [hrows, hrespid]
          apply find?_append_last
          · intro x hx
            have hxid := hfresh x hx
            have hb : (x.id == db.nextId) = false :=
              beq_eq_false_iff_ne.mpr hxid
            simp [hb]
          · rw [hstored]
            simp [User.live, newUserFromRequest]
        simp only [GetUser, gormRepo, Gorm.getByID, hfind]

/-- Witness for C8: create on the empty store, then fetch by the returned
id. -/
theorem C8_create_get_roundtrip_witness :
    (∀ r ∈ dbEmpty.rows, r.id ≠ dbEmpty.nextId)
    ∧ CreateUser gormRepo dbEmpty reqAlice
        = .ok (dbAfterCreate, mapUserToResponse aliceStored)
    ∧ GetUser gormRepo dbAfterCreate (mapUserToResponse aliceStored).id
        = .ok (mapUserToResponse aliceStored) :=
  ⟨by simp [dbEmpty], rfl,
   C8_create_get_roundtrip dbEmpty reqAlice (by simp [dbEmpty]) dbAfterCreate
     (mapUserToResponse aliceStored) rfl⟩

/-- C9: the public view contains exactly the entity's identifier,
username, email, names, active flag and timestamps — never the password
hash (the view is independent of it) — and every successful service
result is such a view. -/
theorem C9_public_view_excludes_hash :
    (∀ u : User, mapUserToResponse u =
      ⟨u.id, u.username, u.email, u.firstName, u.lastName, u.isActive,
        u.createdAt, u.updatedAt⟩)
    ∧ (∀ (u : User) (h : String),
        mapUserToResponse { u with passwordHash := h } = mapUserToResponse u)
    ∧ (∀ (repo : UserRepository) (db : DB) (req : CreateUserRequest)
        (db2 : DB) (r : UserResponse),
        CreateUser repo db req = .ok (db2, r) →
        ∃ u : User, r = mapUserToResponse u)
    ∧ (∀ (repo : UserRepository) (db : DB) (id : Nat) (r : UserResponse),
        GetUser repo db id = .ok r → ∃ u : User, r = mapUserToResponse u)
    ∧ (∀ (repo : UserRepository) (db : DB) (id : Nat)
        (req : UpdateUserRequest) (db2 : DB) (r : UserResponse),
        UpdateUser repo db id req = .ok (db2, r) →
        ∃ u : User, r = mapUserToResponse u)
    ∧ (∀ (repo : UserRepository) (db : DB) (email password : String)
        (r : UserResponse),
        AuthenticateUser repo db email password = .ok r →
        ∃ u : User, r = mapUserToResponse u)
    ∧ (∀ (repo : UserRepository) (db : DB) (page pageSize : Int)
        (l : List UserResponse) (total : Nat),
        ListUsers repo db page pageSize = .ok (l, total) →
        ∀ r ∈ l, ∃ u : User, r = mapUserToResponse u) := by
  refine ⟨fun u => rfl, fun u h => rfl, ?_, ?_, ?_, ?_, ?_⟩
  · intro repo db req db2 r h
    cases hmail : repo.getByEmail db req.email with
    | ok u => simp [CreateUser, hmail] at h
    | error e =>
      cases e with
      | conflict => simp [CreateUser, hmail] at h
      | database => simp [CreateUser, hmail] at h
      | notFound =>
        cases hcr : repo.create db (newUserFromRequest req) with
        | error e2 => cases e2 <;> simp [CreateUser, hmail, hcr] at h
        | ok t =>
          obtain ⟨db3, stored⟩ := t
          have hce : CreateUser repo db req
              = .ok (db3, mapUserToResponse stored) := by
            simp [CreateUser, hmail, hcr]
          rw [hce] at h
          simp only [Except.ok.injEq, Prod.mk.injEq] at h
          exact ⟨stored, h.2.symm⟩
  · intro repo db id r h
    cases hg : repo.getByID db id with
    | error e => cases e <;> simp [GetUser, hg] at h
    | ok u =>
      have hge : GetUser repo db id = .ok (mapUserToResponse u) := by
        simp [GetUser, hg]
      rw [hge] at h
      simp only [Except.ok.injEq] at h
      exact ⟨u, h.symm⟩
  · intro repo db id req db2 r h
    cases hg : repo.getByID db id with
    | error e => cases e <;> simp [UpdateUser, hg] at h
    | ok u =>
      cases hupd : repo.update db (applyUpdateRequest u req) with
      | error e => simp [UpdateUser, hg, hupd] at h
      | ok t =>
        obtain ⟨db3, saved⟩ := t
        have hue : UpdateUser repo db id req
            = .ok (db3, mapUserToResponse saved) := by
          simp [UpdateUser, hg, hupd]
        rw [hue] at h
        simp only [Except.ok.injEq, Prod.mk.injEq] at h
        exact ⟨saved, h.2.symm⟩
  · intro repo db email password r h
    cases hg : repo.getByEmail db email with
    | error e => cases e <;> simp [AuthenticateUser, hg] at h
    | ok u =>
      by_cases hb : bcryptCompare u.passwordHash password = true
      · have hae : AuthenticateUser repo db email password
            = .ok (mapUserToResponse u) := by
          simp [AuthenticateUser, hg, hb]
        rw [hae] at h
        simp only [Except.ok.injEq] at h
        exact ⟨u, h.symm⟩
      · have hb' : bcryptCompare u.passwordHash password = false := by
          cases hx : bcryptCompare u.passwordHash password
          · rfl
          · exact absurd hx hb
        simp [AuthenticateUser, hg, hb'] at h
  · intro repo db page pageSize l total h r hr
    simp only [ListUsers] at h
    split at h
    · cases h
    · simp only [Except.ok.injEq, Prod.mk.injEq] at h
      obtain ⟨hl, -⟩ := h
      rw [← hl] at hr
      obtain ⟨u, hu, rfl⟩ := List.mem_map.mp hr
      exact ⟨u, rfl⟩

/-- Witness for C9: concrete results of every operation are public views. -/
theorem C9_public_view_excludes_hash_witness :
    mapUserToResponse aliceRow =
      ⟨aliceRow.id, aliceRow.username, aliceRow.email, aliceRow.firstName,
        aliceRow.lastName, aliceRow.isActive, aliceRow.createdAt,
        aliceRow.updatedAt⟩
    ∧ mapUserToResponse { aliceRow with passwordHash := "other" }
        = mapUserToResponse aliceRow
    ∧ (∃ u : User, mapUserToResponse aliceStored = mapUserToResponse u)
    ∧ (∃ u : User, mapUserToResponse aliceRow = mapUserToResponse u)
    ∧ (∃ u : User, mapUserToResponse aliceUpdated = mapUserToResponse u)
    ∧ (∃ u : User,
        mapUserToResponse aliceRow = mapUserToResponse u ∧ True)
    ∧ (∀ r ∈ [mapUserToResponse aliceRow],
        ∃ u : User, r = mapUserToResponse u) :=
  ⟨C9_public_view_excludes_hash.1 aliceRow,
   C9_public_view_excludes_hash.2.1 aliceRow "other",
   C9_public_view_excludes_hash.2.2.1 gormRepo dbEmpty reqAlice
     dbAfterCreate (mapUserToResponse aliceStored) rfl,
   C9_public_view_excludes_hash.2.2.2.1 gormRepo dbOneAlice 1
     (mapUserToResponse aliceRow) rfl,
   C9_public_view_excludes_hash.2.2.2.2.1 gormRepo dbOneAlice 1 updWithPw
     dbAfterUpdate (mapUserToResponse aliceUpdated) rfl,
   (C9_public_view_excludes_hash.2.2.2.2.2.1 gormRepo dbOneAlice
     "a@x.com" "pw1" (mapUserToResponse aliceRow) rfl).imp
     (fun _ hu => ⟨hu, trivial⟩),
   C9_public_view_excludes_hash.2.2.2.2.2.2 gormRepo dbOneAlice 1 10
     [mapUserToResponse aliceRow] 1 rfl⟩
